import Mathlib

/-!
Formal model of the image-processing utility in `reduce_image_size.py`.

The script has two functions:

* `reduce_image_size(file_path, max_size)` decodes an image, picks a working
  path (a sibling `.jpg` path when the decoded format is PNG, the input path
  otherwise), repeatedly re-encodes at decreasing quality until the encoded
  file fits under `max_size` or quality reaches 0, and finally either deletes
  the working file (still oversized) or replaces the original file with it.

* `process_images(root_folder, excluded_folders, max_size)` walks a directory
  tree, prunes excluded folders, skips folders recorded in a ledger file
  `.processed_folders.txt`, submits one `reduce_image_size` task per oversized
  image file of each remaining folder to a thread pool, waits for the batch
  (re-raising the first task exception via `future.result()`), and appends the
  folder path to the ledger file.

The filesystem is modelled as an association list from paths to byte lists.
A decoded image is modelled abstractly: a format tag plus, for each quality
value, the bytes the encoder would produce at that quality (one family for the
image as decoded and one for the image after RGB conversion).  Python
exceptions are modelled by returning the filesystem state reached so far
together with an optional error value.
-/

/-- A raised OS-level exception.  The only kind the modelled code paths can
raise is FileNotFoundError, carrying the offending path. -/
inductive OSError where
  | fileNotFound (path : String)
  deriving DecidableEq, Repr

/-- The filesystem: a list of (path, file bytes) entries, earliest entry wins. -/
abbrev FS := List (String × List Nat)

/-- Content of the file at a path, if it exists. -/
def FS.lookup (fs : FS) (p : String) : Option (List Nat) :=
  List.lookup p fs

/-- Remove every entry at a path (helper for save, remove and rename). -/
def FS.erase (fs : FS) (p : String) : FS :=
  fs.filter (fun e => !(e.1 == p))

/-- `img.save(p, ...)`: create or overwrite the file at `p`. -/
def FS.save (fs : FS) (p : String) (b : List Nat) : FS :=
  (p, b) :: FS.erase fs p

/-- Byte size of the file at `p`, defaulting to 0; used only right after a
save to the same path, where the file is guaranteed to exist. -/
def FS.sizeOrZero (fs : FS) (p : String) : Nat :=
  ((FS.lookup fs p).map List.length).getD 0

/-- `os.path.getsize(p)`: size of the file, or FileNotFoundError. -/
def FS.getsize (fs : FS) (p : String) : Except OSError Nat :=
  match FS.lookup fs p with
  | some b => Except.ok b.length
  | none => Except.error (OSError.fileNotFound p)

/-- `os.remove(p)`: delete the file, or FileNotFoundError if absent. -/
def FS.remove (fs : FS) (p : String) : Except OSError FS :=
  match FS.lookup fs p with
  | some _ => Except.ok (FS.erase fs p)
  | none => Except.error (OSError.fileNotFound p)

/-- `os.rename(src, dst)`: move the file at `src` onto `dst` (overwriting
`dst`), or FileNotFoundError if `src` is absent. -/
def FS.rename (fs : FS) (src dst : String) : Except OSError FS :=
  match FS.lookup fs src with
  | some b => Except.ok (FS.save (FS.erase fs src) dst b)
  | none => Except.error (OSError.fileNotFound src)

/-- A decoded in-memory image, abstracted to what the script observes: its
declared format string and the bytes the encoder emits at each quality, both
for the image as decoded (`encode`) and for its RGB conversion
(`encodeRGB`). -/
structure Img where
  format : String
  encode : Int → List Nat
  encodeRGB : Int → List Nat

/-- `img.convert('RGB')`: afterwards the encoder sees the converted image. -/
def Img.convertRGB (img : Img) : Img :=
  { img with encode := img.encodeRGB }

/-- Last index of a character in a character list, or -1 (Python `str.rfind`). -/
def rfindIdx (cs : List Char) (c : Char) : Int :=
  match (cs.reverse).findIdx? (fun x => x == c) with
  | some j => (cs.length : Int) - 1 - j
  | none => -1

/-- `os.path.splitext(p)[0]` for POSIX paths: drop the extension, where the
extension starts at the last dot that lies after the last separator and is
preceded (within the basename) by at least one non-dot character. -/
def splitextRoot (p : String) : String :=
  let cs := p.data
  let sepIdx := rfindIdx cs '/'
  let dotIdx := rfindIdx cs '.'
  if sepIdx < dotIdx then
    let base := (cs.take dotIdx.toNat).drop (sepIdx + 1).toNat
    if base.any (fun x => !(x == '.')) then String.mk (cs.take dotIdx.toNat) else p
  else p

/-- Result of the quality-reduction while loop: the filesystem after the
saves, the last measured size, the final value of the quality variable, and
the trace of qualities at which a save was performed (in order). -/
structure LoopOut where
  fs : FS
  size : Nat
  quality : Int
  quals : List Int
  deriving DecidableEq, Repr

/-- The while loop of `reduce_image_size`, fuel-indexed so that the recursion
is structural:

    while original_size > max_size and quality > 0:
        quality -= 5
        img.save(new_file_path, optimize=True, quality=quality)
        original_size = os.path.getsize(new_file_path)

Each iteration requires `0 < quality` and decreases `quality` by 5, so the
loop performs at most `(quality.toNat + 4) / 5` iterations; any fuel of at
least that much yields the same result (`shrinkLoopF_fuel_irrel` below), so
the fuel-exhausted branch is unreachable from the wrapper `shrinkLoop`. -/
def shrinkLoopF (img : Img) (path : String) (maxS : Nat) :
    Nat → FS → Nat → Int → LoopOut
  | 0, fs, sz, q => ⟨fs, sz, q, []⟩
  | fuel + 1, fs, sz, q =>
    if maxS < sz ∧ 0 < q then
      let q2 := q - 5
      let fs2 := FS.save fs path (img.encode q2)
      let sz2 := FS.sizeOrZero fs2 path
      let out := shrinkLoopF img path maxS fuel fs2 sz2 q2
      ⟨out.fs, out.size, out.quality, q2 :: out.quals⟩
    else ⟨fs, sz, q, []⟩

/-- The while loop of `reduce_image_size`, entered with quality `q`. -/
def shrinkLoop (img : Img) (path : String) (maxS : Nat) (fs : FS) (sz : Nat)
    (q : Int) : LoopOut :=
  shrinkLoopF img path maxS (q.toNat + 1) fs sz q

/-- Model of `reduce_image_size(file_path, max_size)`.  `img` is the image
decoded from the file at `file_path` (`Image.open` fails when the file is
missing, modelled by the first lookup), `fs0` the filesystem at call time.
Returns the final filesystem and the propagated exception, if any. -/
def reduce_image_size (img : Img) (fs0 : FS) (file_path : String)
    (max_size : Nat) : FS × Option OSError :=
  match FS.lookup fs0 file_path with
  | none => (fs0, some (OSError.fileNotFound file_path))
  | some _ =>
    -- if img.format == 'PNG': new_file_path = splitext(file_path)[0] + '.jpg';
    --                         img = img.convert('RGB')
    -- else: new_file_path = file_path
    let pr := if img.format = "PNG"
      then (Img.convertRGB img, splitextRoot file_path ++ ".jpg")
      else (img, file_path)
    -- original_size = os.path.getsize(new_file_path); quality = 80; loop
    match FS.getsize fs0 pr.2 with
    | Except.error e => (fs0, some e)
    | Except.ok original_size =>
      let out := shrinkLoop pr.1 pr.2 max_size fs0 original_size 80
      -- if os.path.getsize(new_file_path) > max_size: os.remove(new_file_path)
      -- else: os.remove(file_path); os.rename(new_file_path, file_path)
      match FS.getsize out.fs pr.2 with
      | Except.error e => (out.fs, some e)
      | Except.ok final_size =>
        if max_size < final_size then
          match FS.remove out.fs pr.2 with
          | Except.error e => (out.fs, some e)
          | Except.ok fs2 => (fs2, none)
        else
          match FS.remove out.fs file_path with
          | Except.error e => (out.fs, some e)
          | Except.ok fs2 =>
            match FS.rename fs2 pr.2 file_path with
            | Except.error e => (fs2, some e)
            | Except.ok fs3 => (fs3, none)

/-- Lowercased string (`str.lower()`; the filenames involved are ASCII). -/
def strLower (s : String) : String :=
  String.mk (s.data.map Char.toLower)

/-- `s.endswith(t)` on strings. -/
def strEndsWith (s t : String) : Bool :=
  List.isSuffixOf t.data s.data

/-- `filename.lower().endswith(('.png', '.jpg', '.jpeg'))`. -/
def extOk (filename : String) : Bool :=
  strEndsWith (strLower filename) ".png" ||
    strEndsWith (strLower filename) ".jpg" ||
    strEndsWith (strLower filename) ".jpeg"

/-- `os.path.join(folder, name)` for a POSIX path and a relative name. -/
def joinPath (folder name : String) : String :=
  folder ++ "/" ++ name

/-- `any(foldername.endswith(folder) for folder in excluded_folders)`. -/
def isExcluded (excl : List String) (p : String) : Bool :=
  excl.any (fun e => strEndsWith p e)

/-- The per-folder dispatch loop of `process_images`: one entry per filename
whose lowercased name ends in an image extension and whose size exceeds
`maxS`, in directory-listing order (lines 70-74 of the script).  Each file of
the folder is a (name, byte size) pair. -/
def folderBatch (folder : String) (maxS : Nat) : List (String × Nat) → List String
  | [] => []
  | (name, sz) :: rest =>
    if extOk name ∧ maxS < sz then
      joinPath folder name :: folderBatch folder maxS rest
    else
      folderBatch folder maxS rest

/-- A directory forest in first-child / next-sibling form: `grow p files subs
sibs` is a folder with full path `p`, directly containing `files` (filename,
byte size pairs), subfolder forest `subs`, and following sibling forest
`sibs`.  `os.walk` visits a folder before its subfolders, and subfolders
before the following siblings. -/
inductive DirForest where
  | nil : DirForest
  | grow (path : String) (files : List (String × Nat)) (subs sibs : DirForest) : DirForest
  deriving DecidableEq, Repr

/-- Observable outcome of (a portion of) a `process_images` walk: the lines
appended to the ledger file, the file paths submitted to the worker pool
(both in order), and the exception propagated out of the walk, if any,
carried as the path of the file whose task raised. -/
structure RunOut where
  appends : List String
  dispatched : List String
  aborted : Option String
  deriving DecidableEq, Repr

/-- Sequencing of two walk segments: once an exception has propagated, the
walk has stopped, so the second segment never runs. -/
def RunOut.seq (a b : RunOut) : RunOut :=
  if a.aborted.isSome then a
  else ⟨a.appends ++ b.appends, a.dispatched ++ b.dispatched, b.aborted⟩

/-- Processing of one visited, non-excluded folder (lines 68-80): skipped
when the folder path is in the ledger snapshot; otherwise its batch is
submitted, then `future.result()` re-raises the exception of a raising task
(`raises` says whether the task for a given file path raises), and only if no
task raised is the folder path appended to the ledger file. -/
def nodeOut (snap : List String) (maxS : Nat) (raises : String → Bool)
    (p : String) (files : List (String × Nat)) : RunOut :=
  if p ∈ snap then ⟨[], [], none⟩
  else
    let batch := folderBatch p maxS files
    match batch.find? raises with
    | some f => ⟨[], batch, some f⟩
    | none => ⟨[p], batch, none⟩

/-- Model of `process_images`: the walk over a directory forest.  `snap` is
the ledger snapshot loaded once at startup (the lines of
`.processed_folders.txt`), `excl` the excluded folder names, `maxS` the size
ceiling, and `raises` tells which file paths have a shrink task that raises
an exception.  A folder whose path ends with an excluded name is pruned
together with its whole subtree (lines 64-66); otherwise the folder is
processed and the walk continues into its subfolders and then its siblings. -/
def process_images (snap excl : List String) (maxS : Nat) (raises : String → Bool) :
    DirForest → RunOut
  | DirForest.nil => ⟨[], [], none⟩
  | DirForest.grow p files subs sibs =>
    if isExcluded excl p then process_images snap excl maxS raises sibs
    else
      RunOut.seq (nodeOut snap maxS raises p files)
        (RunOut.seq (process_images snap excl maxS raises subs)
          (process_images snap excl maxS raises sibs))

/-- The non-excluded folder paths a walk visits, in visiting order. -/
def visitedNE (excl : List String) : DirForest → List String
  | DirForest.nil => []
  | DirForest.grow p _ subs sibs =>
    if isExcluded excl p then visitedNE excl sibs
    else p :: (visitedNE excl subs ++ visitedNE excl sibs)

/-! ### Basic filesystem lemmas -/

theorem FS.lookup_save_self (fs : FS) (p : String) (b : List Nat) :
    FS.lookup (FS.save fs p b) p = some b := by
  simp [FS.lookup, FS.save, List.lookup]

theorem FS.lookup_erase_self (fs : FS) (p : String) :
    FS.lookup (FS.erase fs p) p = none := by
  induction fs with
  | nil => rfl
  | cons e rest ih =>
    rcases e with ⟨k, v⟩
    by_cases h : k = p
    · simpa [FS.erase, List.filter, h] using ih
    · have hb : (k == p) = false := by simpa using h
      have hb2 : (p == k) = false := by simpa using Ne.symm h
      simpa [FS.erase, List.filter, hb, FS.lookup, List.lookup, hb2] using ih

theorem FS.getsize_of_lookup {fs : FS} {p : String} {b : List Nat}
    (h : FS.lookup fs p = some b) : FS.getsize fs p = Except.ok b.length := by
  simp [FS.getsize, h]

theorem FS.getsize_of_none {fs : FS} {p : String}
    (h : FS.lookup fs p = none) :
    FS.getsize fs p = Except.error (OSError.fileNotFound p) := by
  simp [FS.getsize, h]

theorem FS.getsize_ok_lookup {fs : FS} {p : String} {n : Nat}
    (h : FS.getsize fs p = Except.ok n) :
    ∃ b, FS.lookup fs p = some b ∧ b.length = n := by
  unfold FS.getsize at h
  cases hl : FS.lookup fs p with
  | none => rw [hl] at h; cases h
  | some b => rw [hl] at h; cases h; exact ⟨b, rfl, rfl⟩

theorem FS.remove_of_lookup {fs : FS} {p : String} {b : List Nat}
    (h : FS.lookup fs p = some b) : FS.remove fs p = Except.ok (FS.erase fs p) := by
  simp [FS.remove, h]

theorem FS.rename_of_none {fs : FS} {src : String} (dst : String)
    (h : FS.lookup fs src = none) :
    FS.rename fs src dst = Except.error (OSError.fileNotFound src) := by
  simp [FS.rename, h]

/-! ### Claims C1 and C2: behaviour of `reduce_image_size` on JPEG inputs

For a non-PNG input the working path equals the input path, so the loop saves
overwrite the original file in place, and the success branch first deletes the
file and then renames the now-missing path onto itself. -/

/-- A 20-byte JPEG image whose encoder emits 3 bytes at every quality, so one
encode at quality 75 already fits under the ceiling 10. -/
def imgC1 : Img := ⟨"JPEG", fun _ => [0, 0, 0], fun _ => [0, 0, 0]⟩

/-- Filesystem holding only the oversized JPEG file for the C1 scenario. -/
def fsC1 : FS := [("photo1.jpg", List.replicate 20 0)]

/-- Claim C1: the claim states that a shrinkable oversized image ends up at
the original path with size at most max_size.  On the code, a shrinkable
oversized JPEG (20 bytes, ceiling 10, every encode 3 bytes) instead makes
`reduce_image_size` raise FileNotFoundError from `os.rename` — the success
branch deletes `file_path` and then renames that same deleted path onto
itself — and no file remains at the original path. -/
theorem shrinkable_jpeg_not_left_in_place :
    (reduce_image_size imgC1 fsC1 "photo1.jpg" 10).2 =
        some (OSError.fileNotFound "photo1.jpg") ∧
      FS.lookup (reduce_image_size imgC1 fsC1 "photo1.jpg" 10).1 "photo1.jpg" =
        none := by
  decide

/-- A 20-byte JPEG image whose encoder emits 15 bytes at every quality, so no
quality in the loop reaches the ceiling 10. -/
def imgC2 : Img := ⟨"JPEG", fun _ => List.replicate 15 0, fun _ => List.replicate 15 0⟩

/-- Filesystem holding only the unshrinkable JPEG file for the C2 scenario. -/
def fsC2 : FS := [("photo2.jpg", List.replicate 20 1)]

/-- Claim C2: the claim states that an image that cannot be brought under
max_size even at quality 0 is left byte-identical at its original path.  On
the code, an unshrinkable JPEG (20 bytes, ceiling 10, every encode 15 bytes)
is first overwritten in place by the loop saves (working path = input path)
and then deleted by the post-loop `os.remove(new_file_path)`; the call
returns normally and no file remains at the original path. -/
theorem unshrinkable_jpeg_deleted :
    (reduce_image_size imgC2 fsC2 "photo2.jpg" 10).2 = none ∧
      FS.lookup (reduce_image_size imgC2 fsC2 "photo2.jpg" 10).1 "photo2.jpg" =
        none := by
  decide

/-! ### Claim C3: the success branch destroys every non-PNG input -/

/-- Claim C3: for every non-PNG input file, the working path equals the input
path, so when the final size is at most max_size the function deletes the file
at `file_path` and then renames that same, now-deleted path onto itself: the
call raises FileNotFoundError and no file remains at the original path. -/
theorem nonpng_success_branch_destroys_file (img : Img) (fs : FS) (p : String)
    (maxS : Nat) (b : List Nat) (n : Nat)
    (hfmt : ¬ img.format = "PNG")
    (hopen : FS.lookup fs p = some b)
    (hfin : FS.getsize (shrinkLoop img p maxS fs b.length 80).fs p = Except.ok n)
    (hn : n ≤ maxS) :
    (reduce_image_size img fs p maxS).2 = some (OSError.fileNotFound p) ∧
      FS.lookup (reduce_image_size img fs p maxS).1 p = none := by
  obtain ⟨bf, hbf, hlen⟩ := FS.getsize_ok_lookup hfin
  have heq : reduce_image_size img fs p maxS =
      (FS.erase (shrinkLoop img p maxS fs b.length 80).fs p,
        some (OSError.fileNotFound p)) := by
    simp only [reduce_image_size, hopen, if_neg hfmt,
      FS.getsize_of_lookup hopen, hfin, if_neg (not_lt.mpr hn),
      FS.remove_of_lookup hbf,
      FS.rename_of_none p (FS.lookup_erase_self _ p)]
  rw [heq]
  exact ⟨rfl, FS.lookup_erase_self _ p⟩

/-- The JPEG image and filesystem instantiating the C3 witness: a 20-byte
file whose encoder always emits 3 bytes, under ceiling 10. -/
def imgW3 : Img := ⟨"JPEG", fun _ => [0, 0, 0], fun _ => [0, 0, 0]⟩

/-- Filesystem for the C3 witness. -/
def fsW3 : FS := [("witness3.jpg", List.replicate 20 0)]

theorem nonpng_success_branch_destroys_file_witness :
    (¬ imgW3.format = "PNG") ∧
      FS.lookup fsW3 "witness3.jpg" = some (List.replicate 20 0) ∧
      FS.getsize (shrinkLoop imgW3 "witness3.jpg" 10 fsW3
          (List.replicate 20 0).length 80).fs "witness3.jpg" = Except.ok 3 ∧
      3 ≤ 10 ∧
      ((reduce_image_size imgW3 fsW3 "witness3.jpg" 10).2 =
          some (OSError.fileNotFound "witness3.jpg") ∧
        FS.lookup (reduce_image_size imgW3 fsW3 "witness3.jpg" 10).1
          "witness3.jpg" = none) :=
  ⟨by decide, by decide, rfl, by decide,
    nonpng_success_branch_destroys_file imgW3 fsW3 "witness3.jpg" 10
      (List.replicate 20 0) 3 (by decide) (by decide) rfl (by decide)⟩

/-! ### Claim C4: PNG input with no `.jpg` sibling fails before any encode -/

/-- Claim C4: for every PNG input file whose sibling path with a `.jpg`
extension does not exist, `reduce_image_size` raises FileNotFoundError at the
initial `os.path.getsize(new_file_path)` measurement, before performing any
encode, and the filesystem — in particular the original PNG file — is left
exactly as it was. -/
theorem png_missing_sibling_raises_before_encode (img : Img) (fs : FS)
    (p : String) (maxS : Nat) (b : List Nat)
    (hfmt : img.format = "PNG")
    (hopen : FS.lookup fs p = some b)
    (hsib : FS.lookup fs (splitextRoot p ++ ".jpg") = none) :
    reduce_image_size img fs p maxS =
        (fs, some (OSError.fileNotFound (splitextRoot p ++ ".jpg"))) ∧
      FS.lookup (reduce_image_size img fs p maxS).1 p = some b := by
  have heq : reduce_image_size img fs p maxS =
      (fs, some (OSError.fileNotFound (splitextRoot p ++ ".jpg"))) := by
    simp only [reduce_image_size, hopen, if_pos hfmt, FS.getsize_of_none hsib]
  exact ⟨heq, by rw [heq]; exact hopen⟩

/-- The PNG image instantiating the C4 witness (its encoders are never
reached). -/
def imgW4 : Img := ⟨"PNG", fun _ => [0], fun _ => [0]⟩

/-- Filesystem for the C4 witness: only the PNG file itself exists; the
sibling `witness4.jpg` does not. -/
def fsW4 : FS := [("witness4.png", List.replicate 3 0)]

theorem png_missing_sibling_raises_before_encode_witness :
    imgW4.format = "PNG" ∧
      FS.lookup fsW4 "witness4.png" = some (List.replicate 3 0) ∧
      FS.lookup fsW4 (splitextRoot "witness4.png" ++ ".jpg") = none ∧
      (reduce_image_size imgW4 fsW4 "witness4.png" 10 =
          (fsW4, some (OSError.fileNotFound
            (splitextRoot "witness4.png" ++ ".jpg"))) ∧
        FS.lookup (reduce_image_size imgW4 fsW4 "witness4.png" 10).1
          "witness4.png" = some (List.replicate 3 0)) :=
  ⟨by decide, by decide, by decide,
    png_missing_sibling_raises_before_encode imgW4 fsW4 "witness4.png" 10
      (List.replicate 3 0) (by decide) (by decide) (by decide)⟩

/-! ### Claims C6 and C10: the quality loop -/

/-- One unfolding step of the loop when the guard holds. -/
theorem shrinkLoopF_pos (img : Img) (path : String) (maxS : Nat) (fuel : Nat)
    (fs : FS) (sz : Nat) (q : Int) (h : maxS < sz ∧ 0 < q) :
    shrinkLoopF img path maxS (fuel + 1) fs sz q =
      (let q2 := q - 5
       let fs2 := FS.save fs path (img.encode q2)
       let out := shrinkLoopF img path maxS fuel fs2 (FS.sizeOrZero fs2 path) q2
       ⟨out.fs, out.size, out.quality, q2 :: out.quals⟩) := by
  simp only [shrinkLoopF, if_pos h]

/-- One unfolding step of the loop when the guard fails. -/
theorem shrinkLoopF_neg (img : Img) (path : String) (maxS : Nat) (fuel : Nat)
    (fs : FS) (sz : Nat) (q : Int) (h : ¬(maxS < sz ∧ 0 < q)) :
    shrinkLoopF img path maxS (fuel + 1) fs sz q = ⟨fs, sz, q, []⟩ := by
  simp only [shrinkLoopF, if_neg h]

/-- The loop performs at most one save per 5 points of positive quality. -/
theorem shrinkLoopF_quals_len (img : Img) (path : String) (maxS : Nat) :
    ∀ (fuel : Nat) (fs : FS) (sz : Nat) (q : Int),
      (shrinkLoopF img path maxS fuel fs sz q).quals.length ≤ (q.toNat + 4) / 5 := by
  intro fuel
  induction fuel with
  | zero => intro fs sz q; simp [shrinkLoopF]
  | succ n ih =>
    intro fs sz q
    by_cases h : maxS < sz ∧ 0 < q
    · rw [shrinkLoopF_pos img path maxS n fs sz q h]
      have hrec := ih (FS.save fs path (img.encode (q - 5)))
        (FS.sizeOrZero (FS.save fs path (img.encode (q - 5))) path) (q - 5)
      have hq : 0 < q := h.2
      simp only [List.length_cons]
      omega
    · rw [shrinkLoopF_neg img path maxS n fs sz q h]
      simp

/-- Quality stays nonnegative (and a multiple of 5) when it starts that way:
an iteration requires positive quality, and positive multiples of 5 stay
nonnegative after subtracting 5. -/
theorem shrinkLoopF_quality_nonneg (img : Img) (path : String) (maxS : Nat) :
    ∀ (fuel : Nat) (fs : FS) (sz : Nat) (q : Int), 0 ≤ q → 5 ∣ q →
      0 ≤ (shrinkLoopF img path maxS fuel fs sz q).quality ∧
        5 ∣ (shrinkLoopF img path maxS fuel fs sz q).quality := by
  intro fuel
  induction fuel with
  | zero => intro fs sz q hq hdvd; exact ⟨hq, hdvd⟩
  | succ n ih =>
    intro fs sz q hq hdvd
    by_cases h : maxS < sz ∧ 0 < q
    · rw [shrinkLoopF_pos img path maxS n fs sz q h]
      have h5 : (5 : Int) ≤ q := by
        rcases hdvd with ⟨k, hk⟩
        omega
      exact ih _ _ (q - 5) (by omega) (by omega)
    · rw [shrinkLoopF_neg img path maxS n fs sz q h]
      exact ⟨hq, hdvd⟩

/-- The zero-fuel equation of the loop, for rewriting. -/
theorem shrinkLoopF_zero (img : Img) (path : String) (maxS : Nat) (fs : FS)
    (sz : Nat) (q : Int) : shrinkLoopF img path maxS 0 fs sz q = ⟨fs, sz, q, []⟩ :=
  rfl

/-- Any fuel of at least `(q.toNat + 4) / 5` (the maximal number of
iterations) yields the same loop result: the loop always exits through its
own guard, never through fuel exhaustion. -/
theorem shrinkLoopF_fuel_irrel (img : Img) (path : String) (maxS : Nat) :
    ∀ (f1 f2 : Nat) (fs : FS) (sz : Nat) (q : Int),
      (q.toNat + 4) / 5 ≤ f1 → (q.toNat + 4) / 5 ≤ f2 →
      shrinkLoopF img path maxS f1 fs sz q = shrinkLoopF img path maxS f2 fs sz q := by
  intro f1
  induction f1 with
  | zero =>
    intro f2 fs sz q h1 h2
    have hng : ¬(maxS < sz ∧ 0 < q) := by
      rintro ⟨-, hpos⟩
      omega
    cases f2 with
    | zero => rfl
    | succ m =>
      rw [shrinkLoopF_neg img path maxS m fs sz q hng, shrinkLoopF_zero]
  | succ n ih =>
    intro f2 fs sz q h1 h2
    by_cases h : maxS < sz ∧ 0 < q
    · have hqpos : 0 < q := h.2
      cases f2 with
      | zero => omega
      | succ m =>
        simp only [shrinkLoopF, if_pos h]
        rw [ih m _ _ (q - 5) (by omega) (by omega)]
    · cases f2 with
      | zero =>
        rw [shrinkLoopF_neg img path maxS n fs sz q h, shrinkLoopF_zero]
      | succ m =>
        rw [shrinkLoopF_neg img path maxS n fs sz q h,
          shrinkLoopF_neg img path maxS m fs sz q h]

/-- Claim C10: the quality-reduction loop always terminates — with the entry
quality 80 any fuel of at least 16 iterations gives the same result, i.e. the
loop exits through its own guard — at most 16 encodes are performed, and the
final value of the quality variable is never negative: reaching quality 0
with the size still above max_size ends the loop as a regular return value,
not an exception. -/
theorem quality_loop_terminates_bounded (img : Img) (path : String)
    (maxS : Nat) (fs : FS) (sz : Nat) :
    0 ≤ (shrinkLoop img path maxS fs sz 80).quality ∧
      (shrinkLoop img path maxS fs sz 80).quals.length ≤ 16 ∧
      ∀ extra : Nat,
        shrinkLoopF img path maxS (81 + extra) fs sz 80 =
          shrinkLoop img path maxS fs sz 80 := by
  refine ⟨?_, ?_, ?_⟩
  · exact (shrinkLoopF_quality_nonneg img path maxS 81 fs sz 80
      (by norm_num) (by decide)).1
  · have h := shrinkLoopF_quals_len img path maxS 81 fs sz 80
    simpa using h
  · intro extra
    exact shrinkLoopF_fuel_irrel img path maxS (81 + extra) 81 fs sz 80
      (by omega) (by simp)

/-- PNG image for the C6 counterexample: the RGB-converted encoder emits a
single byte recording the quality it was called at. -/
def imgC6 : Img := ⟨"PNG", fun _ => [9], fun q => [q.toNat]⟩

/-- Filesystem for the C6 counterexample: the 3-byte PNG and its 20-byte
(hence oversized, ceiling 10) `.jpg` sibling. -/
def fsC6 : FS := [("photo6.png", List.replicate 3 0), ("photo6.jpg", List.replicate 20 0)]

/-- Claim C6 counterexample: the loop decrements quality before the first
save, so the first (and here only) encode happens at quality 75, not 80: the
quality trace of the loop is `[75]`, and the byte finally stored at the
original path is the quality-75 encode `[75]`, not the quality-80 encode
`[80]`. -/
theorem first_encode_not_at_80 :
    (shrinkLoop (Img.convertRGB imgC6) "photo6.jpg" 10 fsC6 20 80).quals = [75] ∧
      (Img.convertRGB imgC6).encode 80 = [80] ∧
      FS.lookup (reduce_image_size imgC6 fsC6 "photo6.png" 10).1 "photo6.png" =
        some [75] := by
  refine ⟨by decide, by decide, by decide⟩

/-- Claim C6 as amended: in `reduce_image_size` the quality variable is
initialized to 80 but decremented by 5 before each save, so whenever the
initial size exceeds max_size the first encode is performed at quality 75 —
the sequence of qualities used for encoding starts at 75, not 80. -/
theorem first_encode_at_quality_75 (img : Img) (path : String) (maxS : Nat)
    (fs : FS) (sz : Nat) (hsz : maxS < sz) :
    (shrinkLoop img path maxS fs sz 80).quals.head? = some 75 := by
  have hu : shrinkLoop img path maxS fs sz 80 =
      shrinkLoopF img path maxS (80 + 1) fs sz 80 := rfl
  rw [hu, shrinkLoopF_pos img path maxS 80 fs sz 80 ⟨hsz, by norm_num⟩]
  norm_num

theorem first_encode_at_quality_75_witness :
    10 < 20 ∧
      (shrinkLoop (Img.convertRGB imgC6) "photo6.jpg" 10 fsC6 20 80).quals.head? =
        some 75 :=
  ⟨by decide,
    first_encode_at_quality_75 (Img.convertRGB imgC6) "photo6.jpg" 10 fsC6 20
      (by decide)⟩

/-! ### Walk lemmas -/

theorem RunOut.seq_of_some {a : RunOut} (b : RunOut) (h : a.aborted.isSome) :
    RunOut.seq a b = a := by
  simp [RunOut.seq, h]

theorem RunOut.seq_of_none {a : RunOut} (b : RunOut) (h : a.aborted = none) :
    RunOut.seq a b =
      ⟨a.appends ++ b.appends, a.dispatched ++ b.dispatched, b.aborted⟩ := by
  simp [RunOut.seq, h]

theorem RunOut.seq_aborted_none {a b : RunOut}
    (h : (RunOut.seq a b).aborted = none) : a.aborted = none ∧ b.aborted = none := by
  by_cases ha : a.aborted.isSome
  · rw [RunOut.seq_of_some b ha] at h
    rw [h] at ha
    simp at ha
  · have ha2 : a.aborted = none := Option.not_isSome_iff_eq_none.mp ha
    rw [RunOut.seq_of_none b ha2] at h
    exact ⟨ha2, h⟩

theorem nodeOut_in_snap {snap : List String} {p : String} (maxS : Nat)
    (raises : String → Bool) (files : List (String × Nat)) (h : p ∈ snap) :
    nodeOut snap maxS raises p files = ⟨[], [], none⟩ := by
  simp [nodeOut, h]

theorem nodeOut_raise {snap : List String} {p : String} {maxS : Nat}
    {raises : String → Bool} {files : List (String × Nat)} {f : String}
    (h1 : p ∉ snap) (h2 : (folderBatch p maxS files).find? raises = some f) :
    nodeOut snap maxS raises p files = ⟨[], folderBatch p maxS files, some f⟩ := by
  simp [nodeOut, h1, h2]

theorem nodeOut_ok {snap : List String} {p : String} {maxS : Nat}
    {raises : String → Bool} {files : List (String × Nat)}
    (h1 : p ∉ snap) (h2 : (folderBatch p maxS files).find? raises = none) :
    nodeOut snap maxS raises p files = ⟨[p], folderBatch p maxS files, none⟩ := by
  simp [nodeOut, h1, h2]

/-! ### Claim C8: excluded folders are pruned with their whole subtree -/

/-- Claim C8: a folder whose path ends with one of the excluded names
contributes nothing to the walk: its files are never scanned, no task is
dispatched for them, and none of its descendant folders is visited — the walk
of the forest headed by that folder equals the walk of its following siblings
alone. -/
theorem excluded_folder_pruned (snap excl : List String) (maxS : Nat)
    (raises : String → Bool) (p : String) (files : List (String × Nat))
    (subs sibs : DirForest) (hex : isExcluded excl p = true) :
    process_images snap excl maxS raises (DirForest.grow p files subs sibs) =
      process_images snap excl maxS raises sibs := by
  simp [process_images, hex]

theorem excluded_folder_pruned_witness :
    isExcluded ["b"] "root/b" = true ∧
      process_images [] ["b"] 10 (fun _ => false)
          (DirForest.grow "root/b" [("img2.jpg", 30)]
            (DirForest.grow "root/b/sub" [("deep.png", 50)] DirForest.nil
              DirForest.nil)
            DirForest.nil) =
        process_images [] ["b"] 10 (fun _ => false) DirForest.nil :=
  ⟨by decide,
    excluded_folder_pruned [] ["b"] 10 (fun _ => false) "root/b"
      [("img2.jpg", 30)]
      (DirForest.grow "root/b/sub" [("deep.png", 50)] DirForest.nil DirForest.nil)
      DirForest.nil (by decide)⟩

/-! ### Claim C5: a raising task aborts the walk -/

/-- Task-outcome function for the C5 scenario: exactly the task for
`r/a/big.jpg` raises. -/
def raisesC5 : String → Bool := fun s => s == "r/a/big.jpg"

/-- Directory forest for the C5 scenario: sibling folders `r/a` and `r/b`,
each holding one oversized (30-byte, ceiling 10) image. -/
def forestC5 : DirForest :=
  DirForest.grow "r/a" [("big.jpg", 30)] DirForest.nil
    (DirForest.grow "r/b" [("big2.jpg", 30)] DirForest.nil DirForest.nil)

/-- Claim C5 counterexample: with the task for `r/a/big.jpg` raising, the
walk output shows the claim false at this input: `r/a` is never appended to
the ledger (appends is empty), the later folder `r/b` is neither processed
nor appended and its file `r/b/big2.jpg` is never dispatched (only
`r/a/big.jpg` ever was), and the exception propagates out of the walk. -/
theorem task_exception_aborts_walk_cex :
    (process_images [] [] 10 raisesC5 forestC5).appends = [] ∧
      (process_images [] [] 10 raisesC5 forestC5).dispatched = ["r/a/big.jpg"] ∧
      (process_images [] [] 10 raisesC5 forestC5).aborted = some "r/a/big.jpg" := by
  refine ⟨by decide, by decide, by decide⟩

/-- Claim C5 as amended: when a visited, non-excluded, not-yet-processed
folder has a raising task in its batch, `future.result()` re-raises the
exception out of `process_images`: the folder path is not appended to the
ledger, nothing of its subfolders or later folders runs, and the only
dispatched tasks are that folder's own batch. -/
theorem task_exception_aborts_walk (snap excl : List String) (maxS : Nat)
    (raises : String → Bool) (p : String) (files : List (String × Nat))
    (subs sibs : DirForest) (f : String)
    (hex : isExcluded excl p = false)
    (hsnap : p ∉ snap)
    (hraise : (folderBatch p maxS files).find? raises = some f) :
    process_images snap excl maxS raises (DirForest.grow p files subs sibs) =
      ⟨[], folderBatch p maxS files, some f⟩ := by
  have hnode := nodeOut_raise hsnap hraise
  simp [process_images, hex, hnode, RunOut.seq]

theorem task_exception_aborts_walk_witness :
    isExcluded [] "r/a" = false ∧
      "r/a" ∉ ([] : List String) ∧
      (folderBatch "r/a" 10 [("big.jpg", 30)]).find? raisesC5 =
        some "r/a/big.jpg" ∧
      process_images [] [] 10 raisesC5
          (DirForest.grow "r/a" [("big.jpg", 30)] DirForest.nil
            (DirForest.grow "r/b" [("big2.jpg", 30)] DirForest.nil DirForest.nil)) =
        ⟨[], folderBatch "r/a" 10 [("big.jpg", 30)], some "r/a/big.jpg"⟩ :=
  ⟨by decide, by decide, by decide,
    task_exception_aborts_walk [] [] 10 raisesC5 "r/a" [("big.jpg", 30)]
      DirForest.nil
      (DirForest.grow "r/b" [("big2.jpg", 30)] DirForest.nil DirForest.nil)
      "r/a/big.jpg" (by decide) (by decide) (by decide)⟩

/-! ### Claim C7: a second run over the same tree does nothing -/

/-- After a walk that propagated no exception, every visited non-excluded
folder path is either in the startup ledger snapshot or among the lines the
walk appended to the ledger file. -/
theorem visited_in_snap_or_appends (snap excl : List String) (maxS : Nat)
    (raises : String → Bool) :
    ∀ t : DirForest, (process_images snap excl maxS raises t).aborted = none →
      ∀ p, p ∈ visitedNE excl t →
        p ∈ snap ∨ p ∈ (process_images snap excl maxS raises t).appends := by
  intro t
  induction t with
  | nil =>
    intro _ p hp
    simp [visitedNE] at hp
  | grow q files subs sibs ihsubs ihsibs =>
    intro hok p hp
    by_cases hex : isExcluded excl q
    · rw [excluded_folder_pruned snap excl maxS raises q files subs sibs hex] at hok ⊢
      exact ihsibs hok p (by simpa [visitedNE, hex] using hp)
    · have hexf : isExcluded excl q = false := by simpa using hex
      have hgrow : process_images snap excl maxS raises (DirForest.grow q files subs sibs) =
          RunOut.seq (nodeOut snap maxS raises q files)
            (RunOut.seq (process_images snap excl maxS raises subs)
              (process_images snap excl maxS raises sibs)) := by
        simp [process_images, hexf]
      rw [hgrow] at hok ⊢
      obtain ⟨hnode, hrest⟩ := RunOut.seq_aborted_none hok
      obtain ⟨hsubs, hsibs⟩ := RunOut.seq_aborted_none hrest
      rw [RunOut.seq_of_none _ hnode, RunOut.seq_of_none _ hsubs]
      simp only [visitedNE, hexf, Bool.false_eq_true, if_false, List.mem_cons,
        List.mem_append] at hp
      rcases hp with hp | hp | hp
      · subst hp
        by_cases hsnap : p ∈ snap
        · exact Or.inl hsnap
        · cases hfind : (folderBatch p maxS files).find? raises with
          | some f =>
            rw [nodeOut_raise hsnap hfind] at hnode
            cases hnode
          | none =>
            rw [nodeOut_ok hsnap hfind]
            simp
      · rcases ihsubs hsubs p hp with h | h
        · exact Or.inl h
        · refine Or.inr ?_
          simp [h]
      · rcases ihsibs hsibs p hp with h | h
        · exact Or.inl h
        · refine Or.inr ?_
          simp [h]

/-- A walk whose every visited non-excluded folder is already in the ledger
snapshot scans nothing, dispatches nothing, and appends nothing. -/
theorem run_over_ledgered_tree_empty (snap excl : List String) (maxS : Nat)
    (raises : String → Bool) :
    ∀ t : DirForest, (∀ p ∈ visitedNE excl t, p ∈ snap) →
      process_images snap excl maxS raises t = ⟨[], [], none⟩ := by
  intro t
  induction t with
  | nil => intro _; rfl
  | grow q files subs sibs ihsubs ihsibs =>
    intro hall
    by_cases hex : isExcluded excl q
    · rw [excluded_folder_pruned snap excl maxS raises q files subs sibs hex]
      exact ihsibs (fun p hp => hall p (by simpa [visitedNE, hex] using hp))
    · have hexf : isExcluded excl q = false := by simpa using hex
      have hq : q ∈ snap := hall q (by simp [visitedNE, hexf])
      have h2 := ihsubs (fun p hp => hall p (by simp [visitedNE, hexf, hp]))
      have h3 := ihsibs (fun p hp => hall p (by simp [visitedNE, hexf, hp]))
      simp [process_images, hexf, nodeOut_in_snap maxS raises files hq, h2, h3,
        RunOut.seq]

/-- Claim C7: when a run over a tree completes without a propagated task
exception, every visited non-excluded folder is covered by the updated ledger
(startup snapshot plus the appended lines), so a second run with the same
root, exclusions and ceiling — loading that updated ledger — finds every
visited folder in its snapshot, dispatches zero shrink tasks and appends
nothing; this also holds for any second-run forest with the same visited
folder paths (file contents may have been changed by the first run) and any
task outcomes. -/
theorem second_run_performs_no_work (snap excl : List String) (maxS : Nat)
    (raises : String → Bool) (t : DirForest)
    (hok : (process_images snap excl maxS raises t).aborted = none) :
    (∀ p ∈ visitedNE excl t,
        p ∈ snap ++ (process_images snap excl maxS raises t).appends) ∧
      process_images (snap ++ (process_images snap excl maxS raises t).appends)
          excl maxS raises t = ⟨[], [], none⟩ ∧
      ∀ (t2 : DirForest) (raises2 : String → Bool),
        (∀ p ∈ visitedNE excl t2, p ∈ visitedNE excl t) →
        process_images (snap ++ (process_images snap excl maxS raises t).appends)
            excl maxS raises2 t2 = ⟨[], [], none⟩ := by
  have hA := visited_in_snap_or_appends snap excl maxS raises t hok
  have hmem : ∀ p ∈ visitedNE excl t,
      p ∈ snap ++ (process_images snap excl maxS raises t).appends := by
    intro p hp
    rcases hA p hp with h | h
    · exact List.mem_append_left _ h
    · exact List.mem_append_right _ h
  refine ⟨hmem, run_over_ledgered_tree_empty _ excl maxS raises t hmem, ?_⟩
  intro t2 raises2 hsub
  exact run_over_ledgered_tree_empty _ excl maxS raises2 t2
    (fun p hp => hmem p (hsub p hp))

/-- Forest for the C7 witness: one folder `r` with one oversized image. -/
def forestC7 : DirForest :=
  DirForest.grow "r" [("big.jpg", 30)] DirForest.nil DirForest.nil

theorem second_run_performs_no_work_witness :
    (process_images [] [] 10 (fun _ => false) forestC7).aborted = none ∧
      ((∀ p ∈ visitedNE [] forestC7,
          p ∈ ([] : List String) ++
            (process_images [] [] 10 (fun _ => false) forestC7).appends) ∧
        process_images
            (([] : List String) ++
              (process_images [] [] 10 (fun _ => false) forestC7).appends)
            [] 10 (fun _ => false) forestC7 = ⟨[], [], none⟩ ∧
        ∀ (t2 : DirForest) (raises2 : String → Bool),
          (∀ p ∈ visitedNE [] t2, p ∈ visitedNE [] forestC7) →
          process_images
              (([] : List String) ++
                (process_images [] [] 10 (fun _ => false) forestC7).appends)
              [] 10 raises2 t2 = ⟨[], [], none⟩) :=
  ⟨by decide,
    second_run_performs_no_work [] [] 10 (fun _ => false) forestC7 (by decide)⟩

/-! ### Claim C9: exactly the oversized image files of a folder are dispatched -/

/-- Joining distinct names to the same folder yields distinct paths. -/
theorem joinPath_inj (folder : String) {a b : String}
    (h : joinPath folder a = joinPath folder b) : a = b := by
  unfold joinPath at h
  have hd := congrArg String.data h
  rw [String.data_append, String.data_append, String.data_append,
    String.data_append] at hd
  exact String.ext (List.append_cancel_left hd)

/-- Every dispatched path of a folder batch comes from a directly contained
file with an image extension and an oversized size. -/
theorem folderBatch_mem (folder : String) (maxS : Nat) :
    ∀ (files : List (String × Nat)) (fp : String),
      fp ∈ folderBatch folder maxS files →
      ∃ name sz, (name, sz) ∈ files ∧ fp = joinPath folder name ∧
        extOk name = true ∧ maxS < sz := by
  intro files
  induction files with
  | nil =>
    intro fp h
    simp [folderBatch] at h
  | cons e rest ih =>
    rcases e with ⟨name, sz⟩
    intro fp h
    by_cases hc : extOk name ∧ maxS < sz
    · rw [folderBatch, if_pos hc] at h
      rcases List.mem_cons.mp h with heq | hmem
      · exact ⟨name, sz, List.mem_cons_self _ _, heq, by simpa using hc.1, hc.2⟩
      · obtain ⟨n2, s2, h1, h2, h3, h4⟩ := ih fp hmem
        exact ⟨n2, s2, List.mem_cons_of_mem _ h1, h2, h3, h4⟩
    · rw [folderBatch, if_neg hc] at h
      obtain ⟨n2, s2, h1, h2, h3, h4⟩ := ih fp h
      exact ⟨n2, s2, List.mem_cons_of_mem _ h1, h2, h3, h4⟩

/-- When the filenames of a folder are distinct, each file contributes its
joined path to the batch exactly once if it qualifies, and zero times
otherwise. -/
theorem folderBatch_count (folder : String) (maxS : Nat) :
    ∀ files : List (String × Nat), (files.map Prod.fst).Nodup →
      ∀ name sz, (name, sz) ∈ files →
        List.count (joinPath folder name) (folderBatch folder maxS files) =
          if extOk name ∧ maxS < sz then 1 else 0 := by
  intro files
  induction files with
  | nil =>
    intro _ name sz h
    simp at h
  | cons e rest ih =>
    rcases e with ⟨n0, s0⟩
    intro hnd name sz hmem
    have hnd2 : (n0 ∉ rest.map Prod.fst) ∧ (rest.map Prod.fst).Nodup := by
      simpa [List.nodup_cons] using hnd
    rcases List.mem_cons.mp hmem with heq | hmemr
    · have hn : name = n0 := congrArg Prod.fst heq
      have hs : sz = s0 := congrArg Prod.snd heq
      subst hn
      subst hs
      have hnotin : joinPath folder name ∉ folderBatch folder maxS rest := by
        intro hin
        obtain ⟨n2, s2, h1, h2, -, -⟩ := folderBatch_mem folder maxS rest _ hin
        have hnn : name = n2 := joinPath_inj folder h2
        exact hnd2.1 (hnn ▸ List.mem_map_of_mem Prod.fst h1)
      by_cases hc : extOk name ∧ maxS < sz
      · rw [folderBatch, if_pos hc, if_pos hc]
        simp [List.count_cons_self, List.count_eq_zero.mpr hnotin]
      · rw [folderBatch, if_neg hc, if_neg hc]
        exact List.count_eq_zero.mpr hnotin
    · have hne : n0 ≠ name := by
        intro he
        exact hnd2.1 (he ▸ List.mem_map_of_mem Prod.fst hmemr)
      have hcount := ih hnd2.2 name sz hmemr
      by_cases hc : extOk n0 ∧ maxS < s0
      · rw [folderBatch, if_pos hc,
          List.count_cons_of_ne (fun he => hne (joinPath_inj folder he).symm)]
        exact hcount
      · rw [folderBatch, if_neg hc]
        exact hcount

/-- Claim C9: for a visited, non-excluded folder not present in the loaded
ledger snapshot, the dispatched tasks are exactly the folder batch: one task
per directly contained file whose lowercased name ends in `.png`, `.jpg` or
`.jpeg` and whose size strictly exceeds max_size — each such file exactly
once, and nothing else. -/
theorem dispatch_iff_oversized_image (p : String) (files : List (String × Nat))
    (snap excl : List String) (maxS : Nat) (raises : String → Bool)
    (hnd : (files.map Prod.fst).Nodup)
    (hex : isExcluded excl p = false)
    (hsnap : p ∉ snap) :
    (process_images snap excl maxS raises
        (DirForest.grow p files DirForest.nil DirForest.nil)).dispatched =
        folderBatch p maxS files ∧
      (∀ name sz, (name, sz) ∈ files →
        List.count (joinPath p name) (folderBatch p maxS files) =
          if extOk name ∧ maxS < sz then 1 else 0) ∧
      ∀ fp ∈ folderBatch p maxS files,
        ∃ name sz, (name, sz) ∈ files ∧ fp = joinPath p name ∧
          extOk name = true ∧ maxS < sz := by
  refine ⟨?_, folderBatch_count p maxS files hnd, folderBatch_mem p maxS files⟩
  cases hfind : (folderBatch p maxS files).find? raises with
  | some f =>
    simp [process_images, hex, nodeOut_raise hsnap hfind, RunOut.seq]
  | none =>
    simp [process_images, hex, nodeOut_ok hsnap hfind, RunOut.seq]

/-- Folder contents for the C9 witness: two qualifying files (one with an
uppercase extension), one small image, one non-image file. -/
def filesW9 : List (String × Nat) :=
  [("Big.JPG", 30), ("small.png", 5), ("notes.txt", 99), ("huge.jpeg", 40)]

theorem dispatch_iff_oversized_image_witness :
    (filesW9.map Prod.fst).Nodup ∧
      isExcluded ["skipme"] "r/c" = false ∧
      "r/c" ∉ ["r/d"] ∧
      ((process_images ["r/d"] ["skipme"] 10 (fun _ => false)
          (DirForest.grow "r/c" filesW9 DirForest.nil DirForest.nil)).dispatched =
          folderBatch "r/c" 10 filesW9 ∧
        (∀ name sz, (name, sz) ∈ filesW9 →
          List.count (joinPath "r/c" name) (folderBatch "r/c" 10 filesW9) =
            if extOk name ∧ 10 < sz then 1 else 0) ∧
        ∀ fp ∈ folderBatch "r/c" 10 filesW9,
          ∃ name sz, (name, sz) ∈ filesW9 ∧ fp = joinPath "r/c" name ∧
            extOk name = true ∧ 10 < sz) :=
  ⟨by decide, by decide, by decide,
    dispatch_iff_oversized_image "r/c" filesW9 ["r/d"] ["skipme"] 10
      (fun _ => false) (by decide) (by decide) (by decide)⟩
